import Mathlib

set_option maxRecDepth 8000

/-!
Shallow embedding of the GeoTIFF metadata decoder of the geoImages
repository (files `GeoTIFF.cpp`, `GeoTIFF.h`, `geoImage.cpp`).

Modelling conventions:
* Machine integers become `ℕ` (with explicit `% 2 ^ 16` where a C++
  assignment to `quint16` truncates) and `ℤ` where C++ integer promotion
  can make intermediate values negative.
* C++ `double` values become `ℚ`; the IEEE-754 binary64 bit patterns read
  from the byte stream are decoded exactly into `ℚ` (non-finite patterns,
  which cannot occur in the inputs considered here, are mapped to 0).
* `QVariant` becomes the inductive `QVal`, with the numeric conversions
  `toInt`/`toDouble` following Qt's conversion rules.
* Functions that throw (`throw QString`) become `Except TiffError _`.
  The out-of-range container accesses `QList::at`/`constLast` on a too
  short list — undefined behaviour in C++ — are modelled by the
  distinguished error value `TiffError.outOfBounds`, so that the theorems
  can tell such an access apart from the deliberately thrown errors.
* Seeking inside the byte stream is abstracted away: a directory entry is
  modelled together with the run of bytes that the decoding stage reads
  for it (inline value bytes or the bytes found at the value offset).
-/

namespace GeoImages

/-- Byte order of the TIFF stream, from the `II`/`MM` magic bytes. -/
inductive ByteOrder where
  | littleEndian
  | bigEndian
deriving DecidableEq

/-- The values stored in a `QVariantList` by the decoders: widened short
integers, doubles, and Latin-1 strings. -/
inductive QVal where
  | vUInt (n : ℕ)
  | vDouble (q : ℚ)
  | vString (s : String)
deriving DecidableEq

/-- `QVariant::toInt`: integers pass through, doubles are rounded half away
from zero (`qRound`), non-numeric strings convert to 0. -/
def QVal.toInt : QVal → ℤ
  | .vUInt n => n
  | .vDouble q => if 0 ≤ q then ⌊q + 1 / 2⌋ else ⌈q - 1 / 2⌉
  | .vString _ => 0

/-- `QVariant::toDouble`: integers widen, doubles pass through,
non-numeric strings convert to 0. -/
def QVal.toDouble : QVal → ℚ
  | .vUInt n => n
  | .vDouble q => q
  | .vString _ => 0

/-- `QVariant::toString` on the value kinds that occur here. -/
def QVal.toQString : QVal → String
  | .vUInt n => toString n
  | .vDouble q => toString q
  | .vString s => s

/-- Assignment of a C++ `int` to a `quint16` field: reduction mod 2^16. -/
def toQuint16 (i : ℤ) : ℕ := (i % 65536).toNat

/-- The errors thrown by the decoders (`throw QString(...)`).
`outOfBounds` stands for an out-of-range `QList::at`/`last`/`constLast`
access, which is undefined behaviour in the C++ source. -/
inductive TiffError where
  | tagNotSet (tag : ℕ)
  | cannotReadData
  | readPastEnd
  | outOfBounds
deriving DecidableEq

instance {ε α : Type} [DecidableEq ε] [DecidableEq α] : DecidableEq (Except ε α) := fun a b =>
  match a, b with
  | .error e₁, .error e₂ => decidable_of_iff (e₁ = e₂) (by simp)
  | .error _, .ok _ => isFalse (by simp)
  | .ok _, .error _ => isFalse (by simp)
  | .ok a₁, .ok a₂ => decidable_of_iff (a₁ = a₂) (by simp)

/-- Size in bytes of one value of a TIFF data type, from the `switch` in
`FileFormats::GeoTIFF::readTIFFField` (identical to
`TiffIfdEntryPrivate::typeSize` in `geoImage.cpp` and to
`GeoTIFF::TiffIfdEntry::typeSize` in `GeoTIFF.h`).  Type codes are
1 = Byte, 2 = Ascii, 3 = Short, 4 = Long, 5 = Rational, 6 = SByte,
7 = Undefined, 8 = SShort, 9 = SLong, 10 = SRational, 11 = Float,
12 = Double, 13 = Ifd, 14 = Long8, 15 = SLong8, 16 = Ifd8; every other
code falls into the `default` branch of size 0. -/
def typeSize (type : ℕ) : ℕ :=
  match type with
  | 1 | 6 | 2 | 7 => 1
  | 3 | 8 => 2
  | 4 | 9 | 13 | 11 => 4
  | 5 | 10 | 14 | 15 | 16 | 12 => 8
  | _ => 0

/-- A 16-bit unsigned integer from two stream bytes in the given byte
order (`QDataStream >> quint16` / `getValueFromBytes<quint16>`). -/
def u16FromBytes (bo : ByteOrder) (b0 b1 : ℕ) : ℕ :=
  match bo with
  | .littleEndian => b0 % 256 + 256 * (b1 % 256)
  | .bigEndian => 256 * (b0 % 256) + b1 % 256

/-- Reading `count` unsigned 16-bit integers from a byte run
(the `DT_Short` loop); `none` models running out of bytes. -/
def decodeShorts (bo : ByteOrder) : ℕ → List ℕ → Option (List ℕ)
  | 0, _ => some []
  | n + 1, b0 :: b1 :: rest => (decodeShorts bo n rest).map (u16FromBytes bo b0 b1 :: ·)
  | _ + 1, [_] => none
  | _ + 1, [] => none

/-- A natural number from a little-endian byte list. -/
def bytesToNatLE : List ℕ → ℕ
  | [] => 0
  | b :: rest => b % 256 + 256 * bytesToNatLE rest

/-- Exact rational value of an IEEE-754 binary64 bit pattern.  Infinities
and NaNs (exponent field 2047) have no rational value; they are mapped to
0 and play no role in the claims considered here. -/
def ieee754ToRat (bits : ℕ) : ℚ :=
  let sign : ℕ := bits / 2 ^ 63
  let expo : ℕ := bits / 2 ^ 52 % 2 ^ 11
  let mant : ℕ := bits % 2 ^ 52
  let mag : ℚ :=
    if expo = 2047 then 0
    else if expo = 0 then (mant : ℚ) / ((2 ^ 1074 : ℕ) : ℚ)
    else if 1075 ≤ expo then (((2 ^ 52 + mant) * 2 ^ (expo - 1075) : ℕ) : ℚ)
    else ((2 ^ 52 + mant : ℕ) : ℚ) / ((2 ^ (1075 - expo) : ℕ) : ℚ)
  if sign = 1 then -mag else mag

/-- One double from 8 stream bytes: for big-endian streams the source
reverses the byte run before reinterpreting it (the manual `rbytes`
reversal in `parserValues`, equivalent to `QDataStream >> double`). -/
def doubleFromBytes (bo : ByteOrder) (bs : List ℕ) : ℚ :=
  ieee754ToRat (bytesToNatLE (match bo with
    | .littleEndian => bs
    | .bigEndian => bs.reverse))

/-- Reading `count` doubles from a byte run (the `DT_Double` loop);
`none` models running out of bytes. -/
def decodeDoubles (bo : ByteOrder) : ℕ → List ℕ → Option (List ℚ)
  | 0, _ => some []
  | n + 1, bs =>
    if 8 ≤ bs.length then
      (decodeDoubles bo n (bs.drop 8)).map (doubleFromBytes bo (bs.take 8) :: ·)
    else
      none

/-- `QByteArray::split('\0')`: the list of `\0`-separated sub-runs,
keeping empty parts (an empty array splits into one empty part). -/
def splitNul : List ℕ → List (List ℕ)
  | [] => [[]]
  | b :: rest =>
    if b = 0 then [] :: splitNul rest
    else
      match splitNul rest with
      | s :: ss => (b :: s) :: ss
      | [] => [[b]]

/-- `QString::fromLatin1`: each byte becomes the Unicode code point of the
same value. -/
def latin1 (bs : List ℕ) : String :=
  String.mk (bs.map (fun b => Char.ofNat (b % 256)))

/-- One TIFF directory entry, together with the byte run available to its
value decode (the inline value-or-offset bytes, or the bytes found at the
value offset when the value does not fit inline). -/
structure TiffIfdEntry where
  tag : ℕ
  type : ℕ
  count : ℕ
  data : List ℕ
deriving DecidableEq

/-- The state of `m_TIFFFields : QMap<quint16, QVariantList>`, as an
association list keyed by tag. -/
abbrev TiffFields := List (ℕ × List QVal)

/-- The empty `QMap`. -/
def emptyFields : TiffFields := []

/-- `m_TIFFFields[tag] = values`: replace the value at an existing key,
or insert a new key. -/
def setField : TiffFields → ℕ → List QVal → TiffFields
  | [], t, vs => [(t, vs)]
  | (t', vs') :: rest, t, vs =>
    if t' = t then (t, vs) :: rest else (t', vs') :: setField rest t vs

/-- `QMap` lookup (`value`/`operator[]` used read-only). -/
def getField : TiffFields → ℕ → Option (List QVal)
  | [], _ => none
  | (t', vs') :: rest, t => if t' = t then some vs' else getField rest t

/-- `m_TIFFFields.contains(tag)`. -/
def containsField (m : TiffFields) (t : ℕ) : Bool :=
  (getField m t).isSome

/-- The value-decoding switch of `FileFormats::GeoTIFF::readTIFFField`:
Ascii values are read as `count` raw bytes and split on NUL into Latin-1
strings (`QByteArray::split(0)`); Short and Double values are read one by
one from the data stream; every other type decodes to an empty list
(`default: break`).  Errors model the thrown stream errors:
a short Ascii read throws `Cannot read data`, a short Short/Double read
makes `checkForError` throw `Read past end of data stream`. -/
def readFieldValues (bo : ByteOrder) (e : TiffIfdEntry) : Except TiffError (List QVal) :=
  if e.type = 2 then
    if (e.data.take e.count).length ≠ e.count then .error .cannotReadData
    else .ok ((splitNul (e.data.take e.count)).map (fun seg => .vString (latin1 seg)))
  else if e.type = 3 then
    match decodeShorts bo e.count e.data with
    | some ws => .ok (ws.map .vUInt)
    | none => .error .readPastEnd
  else if e.type = 12 then
    match decodeDoubles bo e.count e.data with
    | some qs => .ok (qs.map .vDouble)
    | none => .error .readPastEnd
  else .ok []

/-- `FileFormats::GeoTIFF::readTIFFField`: decode the entry's values and
store them unconditionally under the entry's tag
(`m_TIFFFields[tag] = values;`). -/
def readTIFFField (bo : ByteOrder) (m : TiffFields) (e : TiffIfdEntry) :
    Except TiffError TiffFields :=
  match readFieldValues bo e with
  | .ok vs => .ok (setField m e.tag vs)
  | .error err => .error err

/-- The entry loop of `FileFormats::GeoTIFF::readTIFFData`: process the
directory entries in order, threading `m_TIFFFields`; the first thrown
error aborts the loop. -/
def readTIFFFields (bo : ByteOrder) : List TiffIfdEntry → TiffFields → Except TiffError TiffFields
  | [], m => .ok m
  | e :: es, m =>
    match readTIFFField bo m e with
    | .ok m' => readTIFFFields bo es m'
    | .error err => .error err

/-- `QGeoCoordinate`, restricted to the longitude/latitude pair used
here.  Qt stores the raw values (an out-of-range coordinate merely makes
the object invalid). -/
structure QGeoCoordinate where
  longitude : ℚ
  latitude : ℚ
deriving DecidableEq

/-- `QGeoRectangle`, by its two set corners. -/
structure QGeoRectangle where
  topLeft : QGeoCoordinate
  bottomRight : QGeoCoordinate
deriving DecidableEq

/-- The bounding-box computation at the end of
`FileFormats::GeoTIFF::interpretGeoData` (lines 330–343): `width` and
`height` are `quint16` values, promoted to `int` in `width - 1` and
`height - 1`. -/
def mkBBox (width height : ℕ) (longitute latitude pixelWidth pixelHeight : ℚ) :
    QGeoRectangle where
  topLeft := ⟨longitute, latitude⟩
  bottomRight :=
    ⟨longitute + (((width : ℤ) - 1 : ℤ) : ℚ) * pixelWidth,
     if 0 < pixelHeight then latitude - (((height : ℤ) - 1 : ℤ) : ℚ) * pixelHeight
     else latitude + (((height : ℤ) - 1 : ℤ) : ℚ) * pixelHeight⟩

/-- `FileFormats::GeoTIFF::interpretGeoData`: check the presence of tags
256, 257, 33922, 33550 (in this order), read the last value of 256/257,
elements 3 and 4 of 33922, elements 0 and 1 of 33550, the last value of
270 when present, and produce the bounding box and the name.  Element
accesses are unguarded in the source (`constLast`, `at`); an access on a
too short list is `TiffError.outOfBounds`. -/
def interpretGeoData (m : TiffFields) : Except TiffError (QGeoRectangle × String) :=
  match getField m 256 with
  | none => .error (.tagNotSet 256)
  | some vs256 =>
    match vs256.getLast? with
    | none => .error .outOfBounds
    | some v256 =>
      match getField m 257 with
      | none => .error (.tagNotSet 257)
      | some vs257 =>
        match vs257.getLast? with
        | none => .error .outOfBounds
        | some v257 =>
          match getField m 33922 with
          | none => .error (.tagNotSet 33922)
          | some vs33922 =>
            match vs33922.get? 3, vs33922.get? 4 with
            | some v3, some v4 =>
              match getField m 33550 with
              | none => .error (.tagNotSet 33550)
              | some vs33550 =>
                match vs33550.get? 0, vs33550.get? 1 with
                | some s0, some s1 =>
                  let width := toQuint16 v256.toInt
                  let height := toQuint16 v257.toInt
                  let bbox := mkBBox width height v3.toDouble v4.toDouble
                      s0.toDouble s1.toDouble
                  match getField m 270 with
                  | none => .ok (bbox, "")
                  | some vs270 =>
                    match vs270.getLast? with
                    | none => .error .outOfBounds
                    | some v270 => .ok (bbox, v270.toQString)
                | _, _ => .error .outOfBounds
            | _, _ => .error .outOfBounds

/-- The tag-count cap of `FileFormats::GeoTIFF::readTIFFData`
(lines 157–161): more than 100 declared entries are truncated to 100
(with a warning). -/
def cappedTagCount (tagCount : ℕ) : ℕ :=
  if 100 < tagCount then 100 else tagCount

/-- `FileFormats::GeoTIFF::readTIFFData` from the point where the entry
count has been read: process the first `cappedTagCount tagCount` entries
of the stream, then interpret the collected fields.  A stream holding
fewer entries than are to be processed throws a read error. -/
def readTIFFData (bo : ByteOrder) (tagCount : ℕ) (entries : List TiffIfdEntry) :
    Except TiffError (QGeoRectangle × String) :=
  if entries.length < cappedTagCount tagCount then .error .readPastEnd
  else
    match readTIFFFields bo (entries.take (cappedTagCount tagCount)) emptyFields with
    | .ok m => interpretGeoData m
    | .error err => .error err

/-!
The draft decoder of `geoImage.cpp` (`TiffFilePrivate`, `TiffFile`).
-/

/-- The `TiffFilePrivate::Geo` state, zero-initialised. -/
structure Geo where
  width : ℕ
  height : ℕ
  longitute : ℚ
  latitude : ℚ
  pixelWidth : ℚ
  pixelHeight : ℚ
deriving DecidableEq

/-- The zero-initialised `Geo` member of a fresh `TiffFilePrivate`. -/
def initGeo : Geo := ⟨0, 0, 0, 0, 0, 0⟩

/-- The retention test of `TiffFilePrivate::readIfd` (lines 467/485):
only entries with tag 256, 257, 33550 or 33922 are appended to
`ifdEntries`. -/
def retainTag (t : ℕ) : Bool :=
  t = 256 || t = 257 || t = 33550 || t = 33922

/-- The entries that survive the entry-reading loop of
`TiffFilePrivate::readIfd`, in order. -/
def ifdEntriesOf (entries : List TiffIfdEntry) : List TiffIfdEntry :=
  entries.filter (fun e => retainTag e.tag)

/-- `TiffIfdEntryPrivate::parserValues` of `geoImage.cpp`: only Short and
Double values are decoded; the loop body does nothing for every other
type, leaving the value list empty. -/
def parserValues (bo : ByteOrder) (type count : ℕ) (bytes : List ℕ) :
    Option (List QVal) :=
  if type = 3 then (decodeShorts bo count bytes).map (List.map QVal.vUInt)
  else if type = 12 then (decodeDoubles bo count bytes).map (List.map QVal.vDouble)
  else some []

/-- One iteration of the value-parsing loop of
`TiffFilePrivate::readIfd` (lines 494–543): entries whose
`count * typeSize` is 0 are skipped entirely; otherwise the values are
decoded and the matching `geo` field is assigned.  The unguarded
`values.last()` / `values.at(i)` accesses on a too short list are
`TiffError.outOfBounds`; `none` from the byte decode models reading past
the available bytes. -/
def processDecode (bo : ByteOrder) (g : Geo) (e : TiffIfdEntry) : Except TiffError Geo :=
  if e.count * typeSize e.type = 0 then .ok g
  else
    match parserValues bo e.type e.count e.data with
    | none => .error .readPastEnd
    | some values =>
      if e.tag = 256 then
        match values.getLast? with
        | none => .error .outOfBounds
        | some v => .ok { g with width := toQuint16 v.toInt }
      else if e.tag = 257 then
        match values.getLast? with
        | none => .error .outOfBounds
        | some v => .ok { g with height := toQuint16 v.toInt }
      else if e.tag = 33550 then
        match values.get? 0, values.get? 1 with
        | some v0, some v1 =>
          .ok { g with pixelWidth := v0.toDouble, pixelHeight := v1.toDouble }
        | _, _ => .error .outOfBounds
      else if e.tag = 33922 then
        match values.get? 3, values.get? 4 with
        | some v3, some v4 =>
          .ok { g with longitute := v3.toDouble, latitude := v4.toDouble }
        | _, _ => .error .outOfBounds
      else .ok g

/-- The value-parsing loop of `TiffFilePrivate::readIfd` over the
retained entries, threading the `geo` state. -/
def readIfdGo (bo : ByteOrder) : List TiffIfdEntry → Geo → Except TiffError Geo
  | [], g => .ok g
  | e :: es, g =>
    match processDecode bo g e with
    | .ok g' => readIfdGo bo es g'
    | .error err => .error err

/-- `TiffFilePrivate::readIfd` (classic-TIFF branch) from the point where
the 16-bit entry count `deCount` has been read: read all `deCount`
entries, retain the four tags of interest, then decode the retained
entries in order into the `geo` state.  A stream holding fewer entries
throws a read error. -/
def readIfd (bo : ByteOrder) (deCount : ℕ) (entries : List TiffIfdEntry) :
    Except TiffError Geo :=
  if entries.length < deCount then .error .readPastEnd
  else readIfdGo bo (ifdEntriesOf (entries.take deCount)) initGeo

/-- `TiffFile::getRect`: reject zero-valued fields (`Tag ... is not set`),
then build the rectangle; the bottom-right latitude always adds
`(height - 1) * pixelHeight`, with no sign branch. -/
def getRect (g : Geo) : Except TiffError QGeoRectangle :=
  if g.longitute = 0 ∨ g.latitude = 0 then .error (.tagNotSet 33922)
  else if g.pixelWidth = 0 ∨ g.pixelHeight = 0 then .error (.tagNotSet 33550)
  else if g.width = 0 then .error (.tagNotSet 256)
  else if g.height = 0 then .error (.tagNotSet 257)
  else
    .ok
      { topLeft := ⟨g.longitute, g.latitude⟩
        bottomRight :=
          ⟨g.longitute + (((g.width : ℤ) - 1 : ℤ) : ℚ) * g.pixelWidth,
           g.latitude + (((g.height : ℤ) - 1 : ℤ) : ℚ) * g.pixelHeight⟩ }

/-!
The Ascii branch of `GeoTIFF::TiffIfdEntry::parserValues` in `GeoTIFF.h`
(lines 140–156): a manual loop over the byte run that appends the run
between consecutive NULs at every NUL, and appends the remaining tail
after the loop when the final byte is not NUL.
-/

/-- The loop of the `GeoTIFF.h` Ascii decode: `acc` are the segments
appended so far, `cur` the bytes since the last NUL (`bytes + start`). -/
def asciiScan (acc : List (List ℕ)) (cur : List ℕ) : List ℕ → List (List ℕ) × List ℕ
  | [] => (acc, cur)
  | b :: rest =>
    if b = 0 then asciiScan (acc ++ [cur]) [] rest
    else asciiScan acc (cur ++ [b]) rest

/-- The full Ascii decode of `GeoTIFF.h` on a byte run of length
`m_count`: run the loop, then append the tail segment when the final byte
is not NUL (`bytes[m_count - 1] != '\0'`).  The source reads
`bytes[m_count - 1]` unconditionally, so this definition is faithful only
for nonempty runs (on an empty run the source reads out of bounds). -/
def parserValuesAscii (bytes : List ℕ) : List (List ℕ) :=
  let r := asciiScan [] [] bytes
  if bytes.getLast? = some 0 then r.1 else r.1 ++ [r.2]

/-!
Concrete inputs used by counterexamples and witnesses.
-/

/-- A canonical fields state for a file carrying the four required tags
with the given width, height, tie point and pixel scales. -/
def geoFields (w h : ℕ) (lon lat psX psY : ℚ) : TiffFields :=
  [(256, [QVal.vUInt w]), (257, [QVal.vUInt h]),
   (33922, [QVal.vDouble 0, QVal.vDouble 0, QVal.vDouble 0,
            QVal.vDouble lon, QVal.vDouble lat]),
   (33550, [QVal.vDouble psX, QVal.vDouble psY])]

/-- The little-endian IEEE-754 bytes of the double 1.0. -/
def oneBytes : List ℕ := [0, 0, 0, 0, 0, 0, 240, 63]

/-- The little-endian IEEE-754 bytes of the double 0.0. -/
def zeroBytes : List ℕ := [0, 0, 0, 0, 0, 0, 0, 0]

/-- A Short width entry with value 1. -/
def cWidth1 : TiffIfdEntry := ⟨256, 3, 1, [1, 0]⟩

/-- A Short height entry with value 1. -/
def cHeight1 : TiffIfdEntry := ⟨257, 3, 1, [1, 0]⟩

/-- A pixel-scale entry with both scales 1.0. -/
def cScaleOne : TiffIfdEntry := ⟨33550, 12, 2, oneBytes ++ oneBytes⟩

/-- A tie-point entry whose geographic point is longitude 1.0 on the
equator (latitude 0.0). -/
def cTieEquator : TiffIfdEntry :=
  ⟨33922, 12, 5, zeroBytes ++ zeroBytes ++ zeroBytes ++ oneBytes ++ zeroBytes⟩

/-- A directory entry with an irrelevant tag and an unknown type code. -/
def cJunkEntry : TiffIfdEntry := ⟨999, 17, 1, []⟩

/-- A Short width entry with value 5. -/
def cWidth5 : TiffIfdEntry := ⟨256, 3, 1, [5, 0]⟩

/-- A width entry with an unknown type code. -/
def cWidthUnknownType : TiffIfdEntry := ⟨256, 17, 1, []⟩

/-!
Helper lemmas about the fields map and the entry folds.
-/

lemma getField_setField_self (m : TiffFields) (t : ℕ) (vs : List QVal) :
    getField (setField m t vs) t = some vs := by
  induction m with
  | nil => simp [setField, getField]
  | cons p rest ih =>
    by_cases h : p.1 = t
    · simp [setField, getField, h]
    · simpa [setField, getField, h] using ih

lemma getField_setField_ne (m : TiffFields) (t t' : ℕ) (vs : List QVal)
    (h : t' ≠ t) : getField (setField m t vs) t' = getField m t' := by
  have ht : ¬t = t' := fun hh => h hh.symm
  induction m with
  | nil => simp [setField, getField, ht]
  | cons p rest ih =>
    by_cases hp : p.1 = t
    · subst hp
      simp [setField, getField, ht]
    · simp only [setField, getField, if_neg hp]
      by_cases hp' : p.1 = t'
      · simp [getField, hp']
      · simp [getField, hp', ih]

lemma readTIFFField_ok (bo : ByteOrder) (m : TiffFields) (e : TiffIfdEntry)
    (m' : TiffFields) (h : readTIFFField bo m e = .ok m') :
    ∃ vs, readFieldValues bo e = .ok vs ∧ m' = setField m e.tag vs := by
  unfold readTIFFField at h
  cases hv : readFieldValues bo e with
  | ok vs => rw [hv] at h; exact ⟨vs, rfl, by injection h with h; exact h.symm⟩
  | error err => rw [hv] at h; cases h

lemma readTIFFFields_append (bo : ByteOrder) (l₁ l₂ : List TiffIfdEntry)
    (m : TiffFields) :
    readTIFFFields bo (l₁ ++ l₂) m =
      (readTIFFFields bo l₁ m).bind (readTIFFFields bo l₂) := by
  induction l₁ generalizing m with
  | nil => simp [readTIFFFields, Except.bind]
  | cons e es ih =>
    simp only [List.cons_append, readTIFFFields]
    cases readTIFFField bo m e with
    | ok m₁ => simpa using ih m₁
    | error err => simp [Except.bind]

lemma readIfdGo_append (bo : ByteOrder) (l₁ l₂ : List TiffIfdEntry) (g : Geo) :
    readIfdGo bo (l₁ ++ l₂) g = (readIfdGo bo l₁ g).bind (readIfdGo bo l₂) := by
  induction l₁ generalizing g with
  | nil => simp [readIfdGo, Except.bind]
  | cons e es ih =>
    simp only [List.cons_append, readIfdGo]
    cases processDecode bo g e with
    | ok g₁ => simpa using ih g₁
    | error err => simp [Except.bind]

/-!
Claim C3.
-/

/-- Claim C3, corrected.  The claimed retention set
{256, 257, 270, 33550, 33922} matches neither scanner: the scanner of
`GeoTIFF.cpp` stores every successfully decoded entry under its tag,
whatever the tag is, leaving all other tags untouched; the scanner of
`geoImage.cpp` retains exactly the tags {256, 257, 33550, 33922},
discarding tag 270 together with all others. -/
theorem C3_tag_retention :
    (∀ (bo : ByteOrder) (m : TiffFields) (e : TiffIfdEntry) (m' : TiffFields),
      readTIFFField bo m e = .ok m' → containsField m' e.tag = true) ∧
    (∀ (bo : ByteOrder) (m : TiffFields) (e : TiffIfdEntry) (m' : TiffFields) (t : ℕ),
      readTIFFField bo m e = .ok m' → t ≠ e.tag → getField m' t = getField m t) ∧
    (∀ (es : List TiffIfdEntry) (e : TiffIfdEntry),
      e ∈ ifdEntriesOf es ↔
        e ∈ es ∧ (e.tag = 256 ∨ e.tag = 257 ∨ e.tag = 33550 ∨ e.tag = 33922)) := by
  refine ⟨?_, ?_, ?_⟩
  · intro bo m e m' h
    obtain ⟨vs, _, rfl⟩ := readTIFFField_ok bo m e m' h
    simp [containsField, getField_setField_self]
  · intro bo m e m' t h ht
    obtain ⟨vs, _, rfl⟩ := readTIFFField_ok bo m e m' h
    exact getField_setField_ne m e.tag t vs ht
  · intro es e
    simp only [ifdEntriesOf, List.mem_filter, retainTag, Bool.or_eq_true,
      decide_eq_true_eq]
    tauto

/-- Claim C3, counterexample to the claim as stated: the `GeoTIFF.cpp`
scanner stores an entry with tag 300 (not among the five listed tags)
into the tag-value state, and the `geoImage.cpp` scanner discards an
entry with tag 270 (which the claim says is retained). -/
theorem C3_counterexample :
    readTIFFField .littleEndian emptyFields ⟨300, 3, 1, [5, 0]⟩ =
      .ok [(300, [QVal.vUInt 5])] ∧
    containsField [(300, [QVal.vUInt 5])] 300 = true ∧
    ifdEntriesOf [⟨270, 2, 3, [97, 98, 0]⟩] = [] :=
  ⟨by decide, by decide, by decide⟩

/-- Witness for `C3_tag_retention` at concrete inputs. -/
theorem C3_witness :
    containsField [(300, [QVal.vUInt 5])] 300 = true ∧
    getField [(300, [QVal.vUInt 5])] 256 = getField emptyFields 256 ∧
    (cWidth5 ∈ ifdEntriesOf [cWidth5] ↔
      cWidth5 ∈ [cWidth5] ∧
        (cWidth5.tag = 256 ∨ cWidth5.tag = 257 ∨ cWidth5.tag = 33550 ∨
          cWidth5.tag = 33922)) :=
  ⟨C3_tag_retention.1 .littleEndian emptyFields ⟨300, 3, 1, [5, 0]⟩
      [(300, [QVal.vUInt 5])] (by decide),
   C3_tag_retention.2.1 .littleEndian emptyFields ⟨300, 3, 1, [5, 0]⟩
      [(300, [QVal.vUInt 5])] 256 (by decide) (by decide),
   C3_tag_retention.2.2 [cWidth5] cWidth5⟩

/-!
Claim C7.
-/

/-- Claim C7, corrected.  An unknown type code (0 or above 16) has type
size 0 and the value decode yields nothing; in `geoImage.cpp` the entry
is then skipped entirely, leaving the decoded state unchanged; but in
`GeoTIFF.cpp` the entry is still stored: the empty value list is written
into `m_TIFFFields` under the entry's tag, replacing any previously
retained values of that tag. -/
theorem C7_unknown_type :
    typeSize 0 = 0 ∧
    (∀ t : ℕ, 17 ≤ t → typeSize t = 0) ∧
    (∀ t : ℕ, 1 ≤ t → t ≤ 16 → typeSize t ≠ 0) ∧
    (∀ (bo : ByteOrder) (g : Geo) (e : TiffIfdEntry),
      e.count * typeSize e.type = 0 → processDecode bo g e = .ok g) ∧
    (∀ (bo : ByteOrder) (m : TiffFields) (e : TiffIfdEntry),
      typeSize e.type = 0 → readTIFFField bo m e = .ok (setField m e.tag [])) := by
  refine ⟨rfl, ?_, ?_, ?_, ?_⟩
  · intro t ht
    obtain ⟨k, rfl⟩ : ∃ k, t = k + 17 := ⟨t - 17, by omega⟩
    rfl
  · intro t h1 h16
    interval_cases t <;> decide
  · intro bo g e h
    unfold processDecode
    rw [if_pos h]
  · intro bo m e h
    have h2 : ¬e.type = 2 := fun hh => by rw [hh] at h; exact absurd h (by decide)
    have h3 : ¬e.type = 3 := fun hh => by rw [hh] at h; exact absurd h (by decide)
    have h12 : ¬e.type = 12 := fun hh => by rw [hh] at h; exact absurd h (by decide)
    simp [readTIFFField, readFieldValues, h2, h3, h12]

/-- Claim C7, counterexample to the claim as stated: processing an
unknown-type entry for tag 256 after a Short entry for tag 256 leaves the
stored state changed — the previously retained value list `[5]` is
replaced by the empty list. -/
theorem C7_counterexample :
    readTIFFFields .littleEndian [cWidth5, cWidthUnknownType] emptyFields =
      .ok [(256, [])] ∧
    typeSize 17 = 0 ∧
    getField [(256, [])] 256 = some [] :=
  ⟨by decide, by decide, by decide⟩

/-!
Claim C4: helper lemmas on the two Ascii segmenters.
-/

lemma getLast?_mem_of_eq_some {l : List ℕ} {a : ℕ} (h : l.getLast? = some a) :
    a ∈ l := by
  obtain ⟨hne, rfl⟩ := List.mem_getLast?_eq_getLast (by rw [h]; exact rfl)
  exact List.getLast_mem hne

lemma asciiScan_no_nul : ∀ (bs : List ℕ), 0 ∉ bs →
    ∀ (acc : List (List ℕ)) (cur : List ℕ), asciiScan acc cur bs = (acc, cur ++ bs)
  | [], _, acc, cur => by simp [asciiScan]
  | b :: rest, h, acc, cur => by
    rw [List.mem_cons] at h
    push_neg at h
    have hb : ¬b = 0 := fun hh => h.1 hh.symm
    simp only [asciiScan, if_neg hb]
    rw [asciiScan_no_nul rest h.2 acc (cur ++ [b])]
    simp

lemma asciiScan_cons_nul (acc : List (List ℕ)) (cur : List ℕ) (rest : List ℕ) :
    asciiScan acc cur (0 :: rest) = asciiScan (acc ++ [cur]) [] rest := by
  simp [asciiScan]

lemma splitNul_cons_nul (rest : List ℕ) :
    splitNul (0 :: rest) = [] :: splitNul rest := by
  simp [splitNul]

lemma asciiScan_length : ∀ (bs : List ℕ) (acc : List (List ℕ)) (cur : List ℕ),
    (asciiScan acc cur bs).1.length = acc.length + bs.count 0
  | [], acc, cur => by simp [asciiScan]
  | b :: rest, acc, cur => by
    by_cases hb : b = 0
    · subst hb
      rw [asciiScan_cons_nul, asciiScan_length rest (acc ++ [cur]) []]
      simp [List.count_cons]
      omega
    · simp only [asciiScan, if_neg hb]
      rw [asciiScan_length rest acc (cur ++ [b])]
      simp [List.count_cons, hb]

lemma splitNul_length : ∀ bs : List ℕ, (splitNul bs).length = bs.count 0 + 1
  | [] => by simp [splitNul]
  | b :: rest => by
    by_cases hb : b = 0
    · subst hb
      rw [splitNul_cons_nul, List.length_cons, splitNul_length rest]
      simp [List.count_cons]
    · simp only [splitNul, if_neg hb]
      have hlen := splitNul_length rest
      cases hs : splitNul rest with
      | nil => rw [hs] at hlen; simp at hlen
      | cons s ss =>
        rw [hs] at hlen
        simp only [List.length_cons] at hlen ⊢
        simp [List.count_cons, hb]
        omega

/-- Claim C4, corrected.  The manual NUL loop of `GeoTIFF.h` behaves as
the claim states (on nonempty buffers, the only ones on which the source
is defined): no NUL gives exactly one segment; a buffer ending in NUL
gives one segment per NUL, the final NUL contributing no extra segment;
a buffer not ending in NUL gives one additional tail segment.  The
`QByteArray::split` decode of `GeoTIFF.cpp`, by contrast, always yields
one segment more than the number of NULs, so a buffer ending in NUL gets
a trailing empty segment there. -/
theorem C4_ascii_segmentation :
    (∀ bytes : List ℕ, bytes ≠ [] → 0 ∉ bytes → parserValuesAscii bytes = [bytes]) ∧
    (∀ bytes : List ℕ, bytes.getLast? = some 0 →
      (parserValuesAscii bytes).length = bytes.count 0) ∧
    (∀ (bytes : List ℕ) (b : ℕ), bytes.getLast? = some b → b ≠ 0 →
      (parserValuesAscii bytes).length = bytes.count 0 + 1) ∧
    (∀ bytes : List ℕ, (splitNul bytes).length = bytes.count 0 + 1) := by
  refine ⟨?_, ?_, ?_, splitNul_length⟩
  · intro bytes hne hnin
    have hlast : ¬bytes.getLast? = some 0 := by
      intro hh
      exact hnin (getLast?_mem_of_eq_some hh)
    unfold parserValuesAscii
    rw [if_neg hlast, asciiScan_no_nul bytes hnin [] []]
    simp
  · intro bytes h
    unfold parserValuesAscii
    rw [if_pos h]
    simpa using asciiScan_length bytes [] []
  · intro bytes b h hb
    have hlast : ¬bytes.getLast? = some 0 := by
      rw [h]
      intro hh
      exact hb (by injection hh)
    unfold parserValuesAscii
    rw [if_neg hlast]
    have := asciiScan_length bytes [] []
    simp only [List.length_nil, Nat.zero_add] at this
    simp [this]

/-- Claim C4, counterexample to the claim as stated: the Ascii decode of
`GeoTIFF.cpp` (`QByteArray::split(0)`) on the buffer `"a\x00"` — last
byte NUL — emits a trailing empty segment, producing the two string
values `"a"` and `""` where the claim allows only `["a"]`. -/
theorem C4_counterexample :
    readFieldValues .littleEndian ⟨270, 2, 2, [97, 0]⟩ =
      .ok [QVal.vString "a", QVal.vString ""] ∧
    [97, 0].getLast? = some 0 ∧
    splitNul [97, 0] = [[97], []] ∧
    parserValuesAscii [97, 0] = [[97]] :=
  ⟨by decide, by decide, by decide, by decide⟩

/-- Witness for `C4_ascii_segmentation` at concrete inputs. -/
theorem C4_witness :
    parserValuesAscii [97, 98] = [[97, 98]] ∧
    (parserValuesAscii [97, 0]).length = [97, 0].count 0 ∧
    (parserValuesAscii [97, 0, 98]).length = [97, 0, 98].count 0 + 1 ∧
    (splitNul [97, 0]).length = [97, 0].count 0 + 1 :=
  ⟨C4_ascii_segmentation.1 [97, 98] (by decide) (by decide),
   C4_ascii_segmentation.2.1 [97, 0] (by decide),
   C4_ascii_segmentation.2.2.1 [97, 0, 98] 98 (by decide) (by decide),
   C4_ascii_segmentation.2.2.2 [97, 0]⟩

/-- Witness for `C7_unknown_type` at concrete inputs. -/
theorem C7_witness :
    typeSize 17 = 0 ∧ typeSize 3 ≠ 0 ∧
    processDecode .littleEndian initGeo cJunkEntry = .ok initGeo ∧
    readTIFFField .littleEndian emptyFields cWidthUnknownType =
      .ok (setField emptyFields 256 []) :=
  ⟨C7_unknown_type.2.1 17 (by decide),
   C7_unknown_type.2.2.1 3 (by decide) (by decide),
   C7_unknown_type.2.2.2.1 .littleEndian initGeo cJunkEntry (by decide),
   C7_unknown_type.2.2.2.2 .littleEndian emptyFields cWidthUnknownType (by decide)⟩

/-!
Claim C2.
-/

/-- Claim C2, corrected.  An absent tag 256 or 257 makes both decoders
fail with the corresponding `Tag ... is not set` error, and
`TiffFile::getRect` never returns a rectangle when the decoded width or
height is 0; but `FileFormats::GeoTIFF::interpretGeoData` checks only
the presence of tags 256/257, so a present width or height that decodes
to 0 is accepted there (see `C2_counterexample`). -/
theorem C2_zero_dimensions :
    (∀ m : TiffFields, getField m 256 = none →
      interpretGeoData m = .error (.tagNotSet 256)) ∧
    (∀ (m : TiffFields) (vs : List QVal) (v : QVal),
      getField m 256 = some vs → vs.getLast? = some v → getField m 257 = none →
      interpretGeoData m = .error (.tagNotSet 257)) ∧
    (∀ (g : Geo) (r : QGeoRectangle),
      g.width = 0 ∨ g.height = 0 → getRect g ≠ .ok r) ∧
    (∀ g : Geo, g.longitute ≠ 0 → g.latitude ≠ 0 → g.pixelWidth ≠ 0 →
      g.pixelHeight ≠ 0 → g.width = 0 → getRect g = .error (.tagNotSet 256)) ∧
    (∀ g : Geo, g.longitute ≠ 0 → g.latitude ≠ 0 → g.pixelWidth ≠ 0 →
      g.pixelHeight ≠ 0 → g.width ≠ 0 → g.height = 0 →
      getRect g = .error (.tagNotSet 257)) := by
  refine ⟨?_, ?_, ?_, ?_, ?_⟩
  · intro m h
    simp only [interpretGeoData, h]
  · intro m vs v h256 hlast h257
    simp only [interpretGeoData, h256, hlast, h257]
  · intro g r h hok
    unfold getRect at hok
    split_ifs at hok with h1 h2 h3 h4 <;>
      try exact Except.noConfusion hok
    rcases h with h | h
    · exact h3 h
    · exact h4 h
  · intro g h1 h2 h3 h4 hw
    unfold getRect
    rw [if_neg (by push_neg; exact ⟨h1, h2⟩), if_neg (by push_neg; exact ⟨h3, h4⟩),
      if_pos hw]
  · intro g h1 h2 h3 h4 hw hh
    unfold getRect
    rw [if_neg (by push_neg; exact ⟨h1, h2⟩), if_neg (by push_neg; exact ⟨h3, h4⟩),
      if_neg hw, if_pos hh]

/-- Claim C2, counterexample to the claim as stated: a stream whose tag
256 is present with decoded value 0 is not rejected by
`FileFormats::GeoTIFF::interpretGeoData`; it returns a bounding box
computed from width 0 (the `quint16` width promotes to `int`, so
`width - 1` is `-1` and the bottom-right longitude lies one pixel west
of the tie point). -/
theorem C2_counterexample :
    getField (geoFields 0 1 7 50 1 1) 256 = some [QVal.vUInt 0] ∧
    interpretGeoData (geoFields 0 1 7 50 1 1) = .ok (⟨⟨7, 50⟩, ⟨6, 50⟩⟩, "") :=
  ⟨by decide, by with_unfolding_all decide⟩

/-- Witness for `C2_zero_dimensions` at concrete inputs. -/
theorem C2_witness :
    interpretGeoData emptyFields = .error (.tagNotSet 256) ∧
    interpretGeoData [(256, [QVal.vUInt 4])] = .error (.tagNotSet 257) ∧
    getRect ⟨0, 1, 1, 1, 1, 1⟩ ≠ .ok ⟨⟨0, 0⟩, ⟨0, 0⟩⟩ ∧
    getRect ⟨0, 1, 1, 1, 1, 1⟩ = .error (.tagNotSet 256) ∧
    getRect ⟨1, 0, 1, 1, 1, 1⟩ = .error (.tagNotSet 257) :=
  ⟨C2_zero_dimensions.1 emptyFields (by decide),
   C2_zero_dimensions.2.1 [(256, [QVal.vUInt 4])] [QVal.vUInt 4] (QVal.vUInt 4)
     (by decide) (by decide) (by decide),
   C2_zero_dimensions.2.2.1 ⟨0, 1, 1, 1, 1, 1⟩ ⟨⟨0, 0⟩, ⟨0, 0⟩⟩ (Or.inl rfl),
   C2_zero_dimensions.2.2.2.1 ⟨0, 1, 1, 1, 1, 1⟩ (by decide) (by decide)
     (by decide) (by decide) rfl,
   C2_zero_dimensions.2.2.2.2 ⟨1, 0, 1, 1, 1, 1⟩ (by decide) (by decide)
     (by decide) (by decide) (by decide) rfl⟩

/-!
Claim C6.
-/

/-- Claim C6, corrected.  In `FileFormats::GeoTIFF::interpretGeoData` the
errors `Tag 33922/33550 is not set` are raised exactly on absence of the
tag — a present tag never raises them, zero values included.  But in the
`geoImage.cpp` draft, `TiffFile::getRect` tests the decoded values
against the zero sentinel of the `Geo` state, so a present tie point on
the equator or prime meridian (latitude or longitude 0.0), or a present
zero pixel scale, is misreported as a missing tag
(see `C6_counterexample`). -/
theorem C6_missing_tag_exactness :
    (∀ m : TiffFields, containsField m 33922 = true →
      interpretGeoData m ≠ .error (.tagNotSet 33922)) ∧
    (∀ m : TiffFields, containsField m 33550 = true →
      interpretGeoData m ≠ .error (.tagNotSet 33550)) ∧
    (∀ (m : TiffFields) (vs vs' : List QVal) (v v' : QVal),
      getField m 256 = some vs → vs.getLast? = some v →
      getField m 257 = some vs' → vs'.getLast? = some v' →
      getField m 33922 = none →
      interpretGeoData m = .error (.tagNotSet 33922)) ∧
    (∀ (m : TiffFields) (vs vs' vs3 : List QVal) (v v' v3 v4 : QVal),
      getField m 256 = some vs → vs.getLast? = some v →
      getField m 257 = some vs' → vs'.getLast? = some v' →
      getField m 33922 = some vs3 → vs3.get? 3 = some v3 → vs3.get? 4 = some v4 →
      getField m 33550 = none →
      interpretGeoData m = .error (.tagNotSet 33550)) := by
  refine ⟨?_, ?_, ?_, ?_⟩
  · intro m hc
    unfold interpretGeoData
    repeat' split
    all_goals simp_all [containsField]
  · intro m hc
    unfold interpretGeoData
    repeat' split
    all_goals simp_all [containsField]
  · intro m vs vs' v v' h256 hl h257 hl' h33922
    simp only [interpretGeoData, h256, hl, h257, hl', h33922]
  · intro m vs vs' vs3 v v' v3 v4 h256 hl h257 hl' h33922 hg3 hg4 h33550
    simp only [interpretGeoData, h256, hl, h257, hl', h33922, hg3, hg4, h33550]

/-- Claim C6, counterexample to the claim as stated: a stream whose tie
point (tag 33922) is present and decodes to longitude 1.0, latitude 0.0
(a point on the equator) makes `TiffFile::getRect` fail with the
missing-tag error for 33922, although the tag is present with decodable
values. -/
theorem C6_counterexample :
    readIfd .littleEndian 4 [cWidth1, cHeight1, cScaleOne, cTieEquator] =
      .ok ⟨1, 1, 1, 0, 1, 1⟩ ∧
    getRect ⟨1, 1, 1, 0, 1, 1⟩ = .error (.tagNotSet 33922) :=
  ⟨by with_unfolding_all decide, by decide⟩

/-- Witness for `C6_missing_tag_exactness` at concrete inputs.  The map
`geoFields 1 1 0 0 1 1` carries a tie point with longitude and latitude
both 0; `interpretGeoData` does not report 33922 or 33550 missing on
it. -/
theorem C6_witness :
    interpretGeoData (geoFields 1 1 0 0 1 1) ≠ .error (.tagNotSet 33922) ∧
    interpretGeoData (geoFields 1 1 0 0 1 1) ≠ .error (.tagNotSet 33550) ∧
    interpretGeoData [(256, [QVal.vUInt 1]), (257, [QVal.vUInt 1])] =
      .error (.tagNotSet 33922) ∧
    interpretGeoData [(256, [QVal.vUInt 1]), (257, [QVal.vUInt 1]),
        (33922, [QVal.vDouble 0, QVal.vDouble 0, QVal.vDouble 0,
                 QVal.vDouble 0, QVal.vDouble 0])] =
      .error (.tagNotSet 33550) :=
  ⟨C6_missing_tag_exactness.1 (geoFields 1 1 0 0 1 1) (by decide),
   C6_missing_tag_exactness.2.1 (geoFields 1 1 0 0 1 1) (by decide),
   C6_missing_tag_exactness.2.2.1 [(256, [QVal.vUInt 1]), (257, [QVal.vUInt 1])]
     [QVal.vUInt 1] [QVal.vUInt 1] (QVal.vUInt 1) (QVal.vUInt 1)
     (by decide) (by decide) (by decide) (by decide) (by decide),
   C6_missing_tag_exactness.2.2.2 [(256, [QVal.vUInt 1]), (257, [QVal.vUInt 1]),
       (33922, [QVal.vDouble 0, QVal.vDouble 0, QVal.vDouble 0,
                QVal.vDouble 0, QVal.vDouble 0])]
     [QVal.vUInt 1] [QVal.vUInt 1]
     [QVal.vDouble 0, QVal.vDouble 0, QVal.vDouble 0, QVal.vDouble 0,
      QVal.vDouble 0]
     (QVal.vUInt 1) (QVal.vUInt 1) (QVal.vDouble 0) (QVal.vDouble 0)
     (by decide) (by decide) (by decide) (by decide) (by decide) (by decide)
     (by decide) (by decide)⟩

/-!
Claim C1.
-/

/-- Claim C1, corrected.  The corner formulas of
`FileFormats::GeoTIFF::interpretGeoData` are as claimed: top-left is the
tie point, bottom-right longitude is `lon + (width - 1) * psX`,
bottom-right latitude is `lat - (height - 1) * psY` for `psY > 0` and
`lat + (height - 1) * psY` otherwise.  But the claimed inequalities do
not hold as stated: the bottom-right latitude never exceeds the top-left
latitude (it is strictly below it exactly when `height ≥ 2` and
`psY ≠ 0`); for `height = 1` and `psY > 0` the two are equal, and for
`psY < 0` the bottom-right latitude is below — not above — the top-left
one.  The `TiffFile::getRect` draft has no sign branch at all: it always
adds `(height - 1) * pixelHeight`. -/
theorem C1_bounding_box :
    (∀ (w h : ℕ) (lon lat psX psY : ℚ), 1 ≤ w → w ≤ 65535 → 1 ≤ h → h ≤ 65535 →
      interpretGeoData (geoFields w h lon lat psX psY) =
        .ok (⟨⟨lon, lat⟩,
              ⟨lon + ((w : ℚ) - 1) * psX,
               if 0 < psY then lat - ((h : ℚ) - 1) * psY
               else lat + ((h : ℚ) - 1) * psY⟩⟩, "")) ∧
    (∀ (h : ℕ) (lat psY : ℚ), 1 ≤ h →
      (if 0 < psY then lat - ((h : ℚ) - 1) * psY
       else lat + ((h : ℚ) - 1) * psY) ≤ lat) ∧
    (∀ (h : ℕ) (lat psY : ℚ), 2 ≤ h → psY ≠ 0 →
      (if 0 < psY then lat - ((h : ℚ) - 1) * psY
       else lat + ((h : ℚ) - 1) * psY) < lat) ∧
    (∀ g : Geo, g.longitute ≠ 0 → g.latitude ≠ 0 → g.pixelWidth ≠ 0 →
      g.pixelHeight ≠ 0 → g.width ≠ 0 → g.height ≠ 0 →
      getRect g = .ok ⟨⟨g.longitute, g.latitude⟩,
        ⟨g.longitute + (((g.width : ℤ) - 1 : ℤ) : ℚ) * g.pixelWidth,
         g.latitude + (((g.height : ℤ) - 1 : ℤ) : ℚ) * g.pixelHeight⟩⟩) := by
  refine ⟨?_, ?_, ?_, ?_⟩
  · intro w h lon lat psX psY hw1 hw2 hh1 hh2
    have hwq : toQuint16 ((QVal.vUInt w).toInt) = w := by
      simp only [QVal.toInt, toQuint16]
      rw [Int.emod_eq_of_lt (by omega) (by omega)]
      simp
    have hhq : toQuint16 ((QVal.vUInt h).toInt) = h := by
      simp only [QVal.toInt, toQuint16]
      rw [Int.emod_eq_of_lt (by omega) (by omega)]
      simp
    have h256 : getField (geoFields w h lon lat psX psY) 256 =
        some [QVal.vUInt w] := rfl
    have h257 : getField (geoFields w h lon lat psX psY) 257 =
        some [QVal.vUInt h] := rfl
    have h33922 : getField (geoFields w h lon lat psX psY) 33922 =
        some [QVal.vDouble 0, QVal.vDouble 0, QVal.vDouble 0,
              QVal.vDouble lon, QVal.vDouble lat] := rfl
    have h33550 : getField (geoFields w h lon lat psX psY) 33550 =
        some [QVal.vDouble psX, QVal.vDouble psY] := rfl
    have h270 : getField (geoFields w h lon lat psX psY) 270 = none := rfl
    simp only [interpretGeoData, h256, h257, h33922, h33550, h270,
      List.getLast?_singleton, List.get?_cons_succ, List.get?_cons_zero,
      QVal.toDouble, mkBBox, hwq, hhq]
    push_cast
    norm_num
  · intro h lat psY hh1
    have hq : (1 : ℚ) ≤ (h : ℚ) := by exact_mod_cast hh1
    split_ifs with hp
    · nlinarith
    · nlinarith [mul_nonpos_of_nonneg_of_nonpos (by linarith : (0:ℚ) ≤ (h:ℚ) - 1)
        (le_of_not_lt hp)]
  · intro h lat psY hh2 hne
    have hq : (2 : ℚ) ≤ (h : ℚ) := by exact_mod_cast hh2
    split_ifs with hp
    · nlinarith
    · have hp' : psY < 0 := lt_of_le_of_ne (le_of_not_lt hp) hne
      nlinarith
  · intro g h1 h2 h3 h4 hw hh
    unfold getRect
    rw [if_neg (by push_neg; exact ⟨h1, h2⟩), if_neg (by push_neg; exact ⟨h3, h4⟩),
      if_neg hw, if_neg hh]

/-- Claim C1, counterexample to the claim as stated, at three concrete
inputs: height 1 with pixel-scale Y `1 > 0` yields equal top-left and
bottom-right latitudes (not strictly less); pixel-scale Y `-1 ≤ 0`
yields a bottom-right latitude strictly below the top-left one (not
`≥`); and `TiffFile::getRect` with pixel-scale Y `1 > 0` places the
bottom-right latitude above the top-left one, not at
`lat - (height - 1) * psY`. -/
theorem C1_counterexample :
    ((0 : ℚ) < 1 ∧
      interpretGeoData (geoFields 1 1 10 50 1 1) =
        .ok (⟨⟨10, 50⟩, ⟨10, 50⟩⟩, "") ∧
      ¬ ((50 : ℚ) < 50)) ∧
    ((-1 : ℚ) ≤ 0 ∧
      interpretGeoData (geoFields 2 2 10 50 1 (-1)) =
        .ok (⟨⟨10, 50⟩, ⟨11, 49⟩⟩, "") ∧
      ¬ ((50 : ℚ) ≤ 49)) ∧
    ((0 : ℚ) < 1 ∧
      getRect ⟨1, 2, 10, 50, 1, 1⟩ = .ok ⟨⟨10, 50⟩, ⟨10, 51⟩⟩ ∧
      ¬ ((51 : ℚ) < 50) ∧ (51 : ℚ) ≠ 50 - ((2 : ℚ) - 1) * 1) := by
  refine ⟨⟨by norm_num, by with_unfolding_all decide, by norm_num⟩,
    ⟨by norm_num, by with_unfolding_all decide, by norm_num⟩,
    ⟨by norm_num, by with_unfolding_all decide, by norm_num, by norm_num⟩⟩

/-- Witness for `C1_bounding_box` at concrete inputs (the concrete
scenario of the specification: width 1024, height 768, pixel scale
1/10). -/
theorem C1_witness :
    interpretGeoData (geoFields 1024 768 10 50 (1 / 10) (1 / 10)) =
      .ok (⟨⟨10, 50⟩,
            ⟨10 + ((1024 : ℚ) - 1) * (1 / 10),
             if (0 : ℚ) < 1 / 10 then 50 - ((768 : ℚ) - 1) * (1 / 10)
             else 50 + ((768 : ℚ) - 1) * (1 / 10)⟩⟩, "") ∧
    (if (0 : ℚ) < 1 / 10 then (50 : ℚ) - ((768 : ℚ) - 1) * (1 / 10)
     else (50 : ℚ) + ((768 : ℚ) - 1) * (1 / 10)) ≤ 50 ∧
    (if (0 : ℚ) < 1 / 10 then (50 : ℚ) - ((768 : ℚ) - 1) * (1 / 10)
     else (50 : ℚ) + ((768 : ℚ) - 1) * (1 / 10)) < 50 ∧
    getRect ⟨2, 2, 10, 50, 1, 1⟩ = .ok ⟨⟨10, 50⟩, ⟨11, 51⟩⟩ :=
  ⟨C1_bounding_box.1 1024 768 10 50 (1 / 10) (1 / 10) (by norm_num) (by norm_num)
      (by norm_num) (by norm_num),
   C1_bounding_box.2.1 768 50 (1 / 10) (by norm_num),
   C1_bounding_box.2.2.1 768 50 (1 / 10) (by norm_num) (by norm_num),
   by
    have := C1_bounding_box.2.2.2 ⟨2, 2, 10, 50, 1, 1⟩ (by norm_num) (by norm_num)
      (by norm_num) (by norm_num) (by norm_num) (by norm_num)
    rw [this]
    norm_num⟩

/-!
Claim C5.
-/

/-- Claim C5, evaluation of the code at its failing inputs: a retained
pixel-scale tag 33550 decoding to fewer than 2 doubles, or a retained
tie-point tag 33922 decoding to fewer than 5 doubles, drives the geo
interpretation into an out-of-range `QList::at` access (undefined
behaviour in the C++ source, modelled as `TiffError.outOfBounds`) — not
into any typed, recoverable error; the same holds for the value-parsing
loop of `geoImage.cpp`. -/
theorem C5_short_value_lists :
    interpretGeoData [(256, [QVal.vUInt 1]), (257, [QVal.vUInt 1]),
        (33922, [QVal.vDouble 0, QVal.vDouble 0, QVal.vDouble 0,
                 QVal.vDouble 1, QVal.vDouble 1]),
        (33550, [QVal.vDouble 1])] = .error .outOfBounds ∧
    interpretGeoData [(256, [QVal.vUInt 1]), (257, [QVal.vUInt 1]),
        (33922, [QVal.vDouble 0, QVal.vDouble 0, QVal.vDouble 0,
                 QVal.vDouble 1]),
        (33550, [QVal.vDouble 1, QVal.vDouble 1])] = .error .outOfBounds ∧
    processDecode .littleEndian initGeo ⟨33550, 12, 1, oneBytes⟩ =
      .error .outOfBounds ∧
    TiffError.outOfBounds ≠ TiffError.tagNotSet 33550 ∧
    TiffError.outOfBounds ≠ TiffError.tagNotSet 33922 :=
  ⟨by decide, by decide, by decide, by decide, by decide⟩

/-!
Claim C9.
-/

/-- The last Short width entry used by following claims. -/
def cWidth7 : TiffIfdEntry := ⟨256, 3, 1, [7, 0]⟩

/-- A tie-point entry whose geographic point is (1.0, 1.0). -/
def cTieOne : TiffIfdEntry :=
  ⟨33922, 12, 5, zeroBytes ++ zeroBytes ++ zeroBytes ++ oneBytes ++ oneBytes⟩

lemma readTIFFFields_lastWins (bo : ByteOrder) :
    ∀ (es : List TiffIfdEntry) (m m' : TiffFields),
      readTIFFFields bo es m = .ok m' → ∀ t : ℕ,
        (es.filter (fun x => x.tag == t) = [] → getField m' t = getField m t) ∧
        (∀ e vs, (es.filter (fun x => x.tag == t)).getLast? = some e →
          readFieldValues bo e = .ok vs → getField m' t = some vs)
  | [], m, m', h, t => by
    simp only [readTIFFFields] at h
    injection h with h
    subst h
    exact ⟨fun _ => rfl, fun e vs he _ => by simp at he⟩
  | e :: es, m, m', h, t => by
    simp only [readTIFFFields] at h
    cases hf : readTIFFField bo m e with
    | error err => rw [hf] at h; cases h
    | ok m₁ =>
      rw [hf] at h
      obtain ⟨vs₀, hv₀, hm₁⟩ := readTIFFField_ok bo m e m₁ hf
      subst hm₁
      have IH := readTIFFFields_lastWins bo es _ m' h t
      by_cases ht : e.tag = t
      · subst ht
        have hfil : (e :: es).filter (fun x => x.tag == e.tag) =
            e :: es.filter (fun x => x.tag == e.tag) := by
          simp [List.filter_cons]
        constructor
        · intro hnil
          rw [hfil] at hnil
          cases hnil
        intro e' vs he' hv'
        rw [hfil] at he'
        cases hrest : es.filter (fun x => x.tag == e.tag) with
        | nil =>
          rw [hrest] at he'
          simp only [List.getLast?_singleton, Option.some.injEq] at he'
          subst he'
          rw [hv₀] at hv'
          injection hv' with hv'
          subst hv'
          rw [IH.1 hrest]
          exact getField_setField_self m e.tag vs₀
        | cons a l =>
          rw [hrest, List.getLast?_cons_cons] at he'
          exact IH.2 e' vs (by rw [hrest]; exact he') hv'
      · have hfil : (e :: es).filter (fun x => x.tag == t) =
            es.filter (fun x => x.tag == t) := by
          simp [List.filter_cons, beq_iff_eq, ht]
        refine ⟨?_, ?_⟩
        · intro hnil
          rw [hfil] at hnil
          rw [IH.1 hnil]
          exact getField_setField_ne m e.tag t vs₀ (fun hh => ht hh.symm)
        · intro e' vs he' hv'
          rw [hfil] at he'
          exact IH.2 e' vs he' hv'

/-- Claim C9, confirmed.  When a tag occurs in several directory
entries, the value stored in `m_TIFFFields` — the value the geo
interpretation reads — is the one decoded from the last occurrence;
concretely, a file declaring width 5 and then width 7 yields a bounding
box computed from width 7. -/
theorem C9_last_occurrence_wins :
    (∀ (bo : ByteOrder) (es : List TiffIfdEntry) (m' : TiffFields) (t : ℕ)
        (e : TiffIfdEntry) (vs : List QVal),
      readTIFFFields bo es emptyFields = .ok m' →
      (es.filter (fun x => x.tag == t)).getLast? = some e →
      readFieldValues bo e = .ok vs →
      getField m' t = some vs) ∧
    readTIFFData .littleEndian 5 [cWidth5, cWidth7, cHeight1, cTieOne, cScaleOne] =
      .ok (⟨⟨1, 1⟩, ⟨7, 1⟩⟩, "") := by
  refine ⟨?_, by with_unfolding_all decide⟩
  intro bo es m' t e vs h he hv
  exact (readTIFFFields_lastWins bo es emptyFields m' h t).2 e vs he hv

/-- Witness for `C9_last_occurrence_wins` at a concrete input: after
processing two width entries with values 5 and 7, the stored width list
is the one of the second entry. -/
theorem C9_witness :
    getField [(256, [QVal.vUInt 7])] 256 = some [QVal.vUInt 7] :=
  C9_last_occurrence_wins.1 .littleEndian [cWidth5, cWidth7]
    [(256, [QVal.vUInt 7])] 256 cWidth7 [QVal.vUInt 7]
    (by decide) (by decide) (by decide)

/-!
Claim C8.
-/

/-- Claim C8, corrected.  The `geoImage.cpp` IFD reader processes all `N`
declared entries for every `N` (the `(N+1)`-st appended entry is always
decoded); the `GeoTIFF.cpp` reader, however, caps the declared 16-bit
entry count at 100, processing only `min N 100` entries and ignoring the
rest (with a warning). -/
theorem C8_all_entries_processed :
    (∀ N : ℕ, cappedTagCount N = min N 100) ∧
    (∀ (bo : ByteOrder) (N : ℕ) (es : List TiffIfdEntry),
      readTIFFData bo N es = readTIFFData bo (min N 100) es) ∧
    (∀ (bo : ByteOrder) (es : List TiffIfdEntry) (e : TiffIfdEntry),
      retainTag e.tag = true →
      readIfd bo (es.length + 1) (es ++ [e]) =
        (readIfdGo bo (ifdEntriesOf es) initGeo).bind
          (fun g => processDecode bo g e)) := by
  have hcap : ∀ N : ℕ, cappedTagCount N = min N 100 := by
    intro N
    unfold cappedTagCount
    split_ifs <;> omega
  refine ⟨hcap, ?_, ?_⟩
  · intro bo N es
    unfold readTIFFData
    rw [hcap N, hcap (min N 100), Nat.min_assoc]
    simp
  · intro bo es e hret
    unfold readIfd
    have hlen : ¬((es ++ [e]).length < es.length + 1) := by simp
    rw [if_neg hlen,
      show es.length + 1 = (es ++ [e]).length by simp, List.take_length]
    have hfil : ifdEntriesOf (es ++ [e]) = ifdEntriesOf es ++ [e] := by
      unfold ifdEntriesOf
      rw [List.filter_append]
      simp [List.filter, hret]
    rw [hfil, readIfdGo_append]
    cases readIfdGo bo (ifdEntriesOf es) initGeo with
    | error err => rfl
    | ok g =>
      show readIfdGo bo [e] g = processDecode bo g e
      simp only [readIfdGo]
      cases processDecode bo g e <;> rfl

/-- Claim C8, counterexample to the claim as stated: a classic IFD
declaring 101 entries, whose 101st entry carries the width tag 256, is
read by `GeoTIFF.cpp` as if the 101st entry were absent — the full
101-entry scan would store tag 256, but `readTIFFData` stops after 100
entries and fails with `Tag 256 is not set`. -/
theorem C8_counterexample :
    (List.replicate 100 cJunkEntry ++ [cWidth5]).length = 101 ∧
    readTIFFFields .littleEndian (List.replicate 100 cJunkEntry ++ [cWidth5])
      emptyFields = .ok [(999, []), (256, [QVal.vUInt 5])] ∧
    readTIFFData .littleEndian 101 (List.replicate 100 cJunkEntry ++ [cWidth5]) =
      .error (.tagNotSet 256) :=
  ⟨by decide, by decide, by decide⟩

/-- Witness for `C8_all_entries_processed` at concrete inputs. -/
theorem C8_witness :
    cappedTagCount 101 = min 101 100 ∧
    readTIFFData .littleEndian 101 [] = readTIFFData .littleEndian (min 101 100) [] ∧
    readIfd .littleEndian 1 [cWidth5] =
      (readIfdGo .littleEndian (ifdEntriesOf []) initGeo).bind
        (fun g => processDecode .littleEndian g cWidth5) :=
  ⟨C8_all_entries_processed.1 101,
   C8_all_entries_processed.2.1 .littleEndian 101 [],
   C8_all_entries_processed.2.2 .littleEndian [] cWidth5 (by decide)⟩

/-!
Claim C10.
-/

/-- Claim C10, confirmed.  The element accesses of the geo
interpretation stage are unguarded: a retained entry of type Long
(code 4) — which the decoder never decodes — is stored with an empty
value list, on which the `constLast` access for tag 256 is out of bounds
(`TiffError.outOfBounds`, undefined behaviour in the source); and, with
all four required tags present, the stage avoids the out-of-bounds
access exactly when each accessed list is long enough (last element of
256, 257 and — when present — 270; indices 3 and 4 of 33922; indices 0
and 1 of 33550). -/
theorem C10_unguarded_element_accesses :
    (∀ (bo : ByteOrder) (m : TiffFields) (e : TiffIfdEntry), e.type = 4 →
      readTIFFField bo m e = .ok (setField m e.tag [])) ∧
    (∀ m : TiffFields, getField m 256 = some [] →
      interpretGeoData m = .error .outOfBounds) ∧
    (∀ (m : TiffFields) (vs1 vs2 vs3 vs4 : List QVal),
      getField m 256 = some vs1 → getField m 257 = some vs2 →
      getField m 33922 = some vs3 → getField m 33550 = some vs4 →
      (interpretGeoData m ≠ .error .outOfBounds ↔
        (vs1 ≠ [] ∧ vs2 ≠ [] ∧ 5 ≤ vs3.length ∧ 2 ≤ vs4.length ∧
          ∀ vs5 : List QVal, getField m 270 = some vs5 → vs5 ≠ []))) := by
  refine ⟨?_, ?_, ?_⟩
  · intro bo m e h4
    simp [readTIFFField, readFieldValues, h4]
  · intro m h
    simp [interpretGeoData, h]
  · intro m vs1 vs2 vs3 vs4 h1 h2 h3 h4
    simp only [interpretGeoData, h1, h2, h3, h4]
    rcases hl1 : vs1.getLast? with _ | v1
    · have hv1 : vs1 = [] := List.getLast?_eq_none_iff.mp hl1
      exact iff_of_false (fun hne => hne rfl) (fun hR => hR.1 hv1)
    · have hv1 : vs1 ≠ [] := by intro hh; rw [hh] at hl1; simp at hl1
      rcases hl2 : vs2.getLast? with _ | v2
      · have hv2 : vs2 = [] := List.getLast?_eq_none_iff.mp hl2
        exact iff_of_false (fun hne => hne rfl) (fun hR => hR.2.1 hv2)
      · have hv2 : vs2 ≠ [] := by intro hh; rw [hh] at hl2; simp at hl2
        rcases hg3 : vs3.get? 3 with _ | v3
        · have hlen3 : vs3.length ≤ 3 := List.get?_eq_none.mp hg3
          exact iff_of_false (fun hne => hne rfl)
            (fun hR => absurd hR.2.2.1 (by omega))
        · rcases hg4 : vs3.get? 4 with _ | v4
          · have hlen3 : vs3.length ≤ 4 := List.get?_eq_none.mp hg4
            exact iff_of_false (fun hne => hne rfl)
              (fun hR => absurd hR.2.2.1 (by omega))
          · have hlen3 : 4 < vs3.length := (List.get?_eq_some.mp hg4).1
            rcases hg0 : vs4.get? 0 with _ | s0
            · have hlen4 : vs4.length ≤ 0 := List.get?_eq_none.mp hg0
              exact iff_of_false (fun hne => hne rfl)
                (fun hR => absurd hR.2.2.2.1 (by omega))
            · rcases hg1 : vs4.get? 1 with _ | s1
              · have hlen4 : vs4.length ≤ 1 := List.get?_eq_none.mp hg1
                exact iff_of_false (fun hne => hne rfl)
                  (fun hR => absurd hR.2.2.2.1 (by omega))
              · have hlen4 : 1 < vs4.length := (List.get?_eq_some.mp hg1).1
                rcases h270 : getField m 270 with _ | vs5
                · exact iff_of_true (fun heq => Except.noConfusion heq)
                    ⟨hv1, hv2, by omega, by omega,
                     fun vs5 hh => Option.noConfusion hh⟩
                · dsimp only
                  rcases hl5 : vs5.getLast? with _ | v5
                  · have hv5 : vs5 = [] := List.getLast?_eq_none_iff.mp hl5
                    exact iff_of_false (fun hne => hne rfl)
                      (fun hR => (hR.2.2.2.2 vs5 rfl) hv5)
                  · have hv5 : vs5 ≠ [] := by
                      intro hh; rw [hh] at hl5; simp at hl5
                    exact iff_of_true (fun heq => Except.noConfusion heq)
                      ⟨hv1, hv2, by omega, by omega,
                       fun vs5' hh => by
                        injection hh with hh
                        exact hh ▸ hv5⟩

/-- Witness for `C10_unguarded_element_accesses` at concrete inputs: a
Long-typed width entry is stored with an empty list; an empty stored
width list drives `interpretGeoData` out of bounds; on a fields state
with all four required tags present and long enough, the totality
equivalence holds. -/
theorem C10_witness :
    readTIFFField .littleEndian emptyFields ⟨256, 4, 1, [1, 0, 0, 0]⟩ =
      .ok (setField emptyFields 256 []) ∧
    interpretGeoData [(256, [])] = .error .outOfBounds ∧
    (interpretGeoData (geoFields 1 1 0 0 1 1) ≠ .error .outOfBounds ↔
      ([QVal.vUInt 1] ≠ ([] : List QVal) ∧ [QVal.vUInt 1] ≠ ([] : List QVal) ∧
        5 ≤ ([QVal.vDouble 0, QVal.vDouble 0, QVal.vDouble 0, QVal.vDouble 0,
              QVal.vDouble 0] : List QVal).length ∧
        2 ≤ ([QVal.vDouble 1, QVal.vDouble 1] : List QVal).length ∧
        ∀ vs5 : List QVal, getField (geoFields 1 1 0 0 1 1) 270 = some vs5 →
          vs5 ≠ [])) :=
  ⟨C10_unguarded_element_accesses.1 .littleEndian emptyFields
      ⟨256, 4, 1, [1, 0, 0, 0]⟩ rfl,
   C10_unguarded_element_accesses.2.1 [(256, [])] rfl,
   C10_unguarded_element_accesses.2.2 (geoFields 1 1 0 0 1 1)
     [QVal.vUInt 1] [QVal.vUInt 1]
     [QVal.vDouble 0, QVal.vDouble 0, QVal.vDouble 0, QVal.vDouble 0,
      QVal.vDouble 0]
     [QVal.vDouble 1, QVal.vDouble 1]
     (by decide) (by decide) (by decide) (by decide)⟩

end GeoImages


